import Mathlib

/-!
Verification of the CoolishReader rating subsystem.

This file shallowly embeds the original JavaScript of the repository:
the tryte codec used for rating payloads (the vendored IOTA client's
`toTrytes` / `fromTrytes`), the `rtrim` filler stripper, the
`hashCreate` address derivation (SHA-256 digest, uppercase, digit
remap, filler padding), the `get_rating` / `push_rating` ledger
operations, the reader controller's `relocated` handler, and the two
static-server route tables.

Modelling conventions:
* JavaScript strings are `List Char`; machine words are `Nat` reduced
  with explicit `% 2 ^ 32` where overflow matters.
* JavaScript numbers are modelled as exact rationals extended with
  `NaN` and the infinities (`JsNum`); the only divisions the rating
  code performs are `sum / total` on small integers, where the spec
  itself speaks in exact terms (`13/3`, `NaN`).
* Effectful functions (`get_rating`, `push_rating`) are embedded as
  pure functions from the outcome the external ledger client passes to
  their callback, returning a trace of the observable actions (calls
  made, console logs, callback invocation).
-/

/-- The tryte alphabet constant `'9ABCDEFGHIJKLMNOPQRSTUVWXYZ'` of the
vendored IOTA utilities (also declared verbatim in the rating code). -/
def tryteAlphabet : List Char := "9ABCDEFGHIJKLMNOPQRSTUVWXYZ".data

/-- JavaScript `Array.prototype.indexOf`-style search: first index of
`c`, or `-1` when absent. -/
def jsIndexOf (l : List Char) (c : Char) : Int :=
  match l.findIdx? (fun x => x = c) with
  | some i => (i : Int)
  | none => -1

/-- JavaScript `String.fromCharCode`: the argument is reduced modulo
`2 ^ 16` (`ToUint16`) and used as a code unit. -/
def jsFromCharCode (n : Int) : Char := Char.ofNat ((n % 65536).toNat)

/-- The vendored IOTA `toTrytes`: each character of code at most 255
becomes two trytes (`code % 27` then `code / 27`, low tryte first);
a character beyond 255 makes the whole conversion return `null`. -/
def toTrytes (l : List Char) : Option (List Char) :=
  if l.all (fun c => c.toNat ≤ 255) then
    some (l.foldr (fun c acc =>
      let i := c.toNat
      let o := i % 27
      tryteAlphabet.getD o '9' :: tryteAlphabet.getD ((i - o) / 27) '9' :: acc) [])
  else none

/-- Pair-decoding core of the vendored IOTA `fromTrytes`. -/
def fromTrytesAux : List Char → List Char
  | c1 :: c2 :: rest =>
      jsFromCharCode (jsIndexOf tryteAlphabet c1 + 27 * jsIndexOf tryteAlphabet c2)
        :: fromTrytesAux rest
  | _ => []

/-- The vendored IOTA `fromTrytes`: `null` on odd length, otherwise
decode consecutive tryte pairs back to character codes. -/
def fromTrytes (l : List Char) : Option (List Char) :=
  if l.length % 2 = 1 then none else some (fromTrytesAux l)

/-- Fuel-indexed version of the rating code's recursive `rtrim`
(each step removes one trailing copy of `c`). -/
def rtrimAux : Nat → Char → List Char → List Char
  | 0, _, s => s
  | n + 1, c, s => if s.getLast? = some c then rtrimAux n c s.dropLast else s

/-- The rating code's `rtrim(char, str)` for a one-character `char`:
strip every trailing occurrence of `c`.  The recursion depth is bounded
by the string length, which serves as fuel. -/
def rtrim (c : Char) (s : List Char) : List Char := rtrimAux s.length c s

/-- Opening brace character (kept out of string literals). -/
def lbrace : Char := Char.ofNat 123

/-- Closing brace character (kept out of string literals). -/
def rbrace : Char := Char.ofNat 125

/-- The ten-character prefix of the JSON rating payload: an opening
brace, the quoted key `rating`, and a colon. -/
def ratingKey : List Char := [lbrace, '"', 'r', 'a', 't', 'i', 'n', 'g', '"', ':']

/-- JavaScript `JSON.stringify` applied to the rating object the
controller builds with a numeric rating value `v`: the text consists of
the rating key prefix, the decimal rendering of `v`, and a closing
brace (no whitespace). -/
def jsonStringifyRating (v : Int) : List Char := ratingKey ++ (toString v).data ++ [rbrace]

/-- A JSON scalar as it can appear in the `rating` field of a stored
payload: a number or a string. -/
inductive JsonVal where
  | num (n : Int)
  | str (s : List Char)
deriving DecidableEq

/-- Leading decimal-digit parse: the value of the maximal digit prefix,
or `none` when the text does not start with a digit. -/
def parseLeadingNat (l : List Char) : Option Nat :=
  let ds := l.takeWhile (fun c => '0' ≤ c ∧ c ≤ '9')
  if ds = [] then none
  else some (ds.foldl (fun a c => 10 * a + (c.toNat - 48)) 0)

/-- Model of the host `JSON.parse` restricted to the payload shapes this
program ever stores: an object with the single key `rating` whose value
is an integer or a (digit-only) string.  Anything else is a parse
failure, modelling the exception `JSON.parse` would throw. -/
def jsonParseRating (l : List Char) : Option JsonVal :=
  if l.take 10 = ratingKey then
    match l.drop 10 with
    | '"' :: t =>
        let s := t.takeWhile (fun c => c ≠ '"')
        if t.dropWhile (fun c => c ≠ '"') = ['"', rbrace] then some (.str s) else none
    | rest =>
        match rest with
        | '-' :: t =>
            match parseLeadingNat t with
            | some n =>
                if t.dropWhile (fun c => '0' ≤ c ∧ c ≤ '9') = [rbrace]
                then some (.num (-(n : Int))) else none
            | none => none
        | t =>
            match parseLeadingNat t with
            | some n =>
                if t.dropWhile (fun c => '0' ≤ c ∧ c ≤ '9') = [rbrace]
                then some (.num (n : Int)) else none
            | none => none
  else none

/-- JavaScript `parseInt` as `get_rating` applies it to the parsed
`rating` field: a number is already integral here and is returned as
is; a string yields the value of its leading digits (with optional
minus sign), and `NaN` (modelled as `none`) when there are none. -/
def jsParseInt : JsonVal → Option Int
  | .num n => some n
  | .str s =>
      match s with
      | '-' :: t => (parseLeadingNat t).map (fun n => -(n : Int))
      | t => (parseLeadingNat t).map (fun n => (n : Int))

/-- JavaScript property-key coercion of a parsed `rating` value, as in
the lookup `rating[res["rating"]]`: numbers print in decimal, strings
stay themselves. -/
def keyString : JsonVal → List Char
  | .num n => (toString n).data
  | .str s => s

/-- The Rating Codec's `encode` (the claim's reading of
`push_rating`'s payload construction): JSON-serialize the rating object
and convert the text to trytes. -/
def encodeRating (r : Int) : Option (List Char) := toTrytes (jsonStringifyRating r)

/-- The Rating Codec's `decode` (the claim's reading of `get_rating`'s
per-record pipeline): strip trailing `'9'` filler, convert back from
trytes, parse the JSON, extract the `rating` field and coerce it to an
integer. -/
def decodeRating (p : List Char) : Option Int :=
  (fromTrytes (rtrim '9' p)).bind (fun s => (jsonParseRating s).bind jsParseInt)

/-- UTF-8 bytes of one character, as the vendored js-sha256 string
preprocessing produces them (its UTF-16 surrogate-pair branch yields
exactly the standard 4-byte encoding of the corresponding scalar). -/
def utf8Bytes (c : Char) : List Nat :=
  let o := c.toNat
  if o < 128 then [o]
  else if o < 2048 then [192 ||| (o >>> 6), 128 ||| (o &&& 63)]
  else if o < 65536 then
    [224 ||| (o >>> 12), 128 ||| ((o >>> 6) &&& 63), 128 ||| (o &&& 63)]
  else
    [240 ||| (o >>> 18), 128 ||| ((o >>> 12) &&& 63), 128 ||| ((o >>> 6) &&& 63),
      128 ||| (o &&& 63)]

/-- UTF-8 byte sequence of a string. -/
def utf8Encode (s : String) : List Nat := s.data.flatMap utf8Bytes

/-- Reduction modulo `2 ^ 32`, the implicit word width of the js-sha256
arithmetic. -/
def mask32 (x : Nat) : Nat := x % 4294967296

/-- 32-bit right rotation. -/
def rotr32 (n x : Nat) : Nat := (x >>> n) ||| mask32 (x <<< (32 - n))

/-- 32-bit bitwise complement. -/
def compl32 (x : Nat) : Nat := 4294967295 - x

/-- The 64 SHA-256 round constants, in the decimal form in which the
vendored js-sha256 lists them. -/
def shaK : List Nat :=
  [1116352408, 1899447441, 3049323471, 3921009573, 961987163, 1508970993,
   2453635748, 2870763221, 3624381080, 310598401, 607225278, 1426881987,
   1925078388, 2162078206, 2614888103, 3248222580, 3835390401, 4022224774,
   264347078, 604807628, 770255983, 1249150122, 1555081692, 1996064986,
   2554220882, 2821834349, 2952996808, 3210313671, 3336571891, 3584528711,
   113926993, 338241895, 666307205, 773529912, 1294757372, 1396182291,
   1695183700, 1986661051, 2177026350, 2456956037, 2730485921, 2820302411,
   3259730800, 3345764771, 3516065817, 3600352804, 4094571909, 275423344,
   430227734, 506948616, 659060556, 883997877, 958139571, 1322822218,
   1537002063, 1747873779, 1955562222, 2024104815, 2227730452, 2361852424,
   2428436474, 2756734187, 3204031479, 3329325298]

/-- The eight SHA-256 chaining words. -/
structure Sha256Digest where
  h0 : Nat
  h1 : Nat
  h2 : Nat
  h3 : Nat
  h4 : Nat
  h5 : Nat
  h6 : Nat
  h7 : Nat

/-- Initial chaining value, in the decimal form of the vendored
js-sha256 (its non-224 branch). -/
def shaInit : Sha256Digest :=
  ⟨1779033703, 3144134277, 1013904242, 2773480762,
   1359893119, 2600822924, 528734635, 1541459225⟩

/-- The eight working registers of the compression loop. -/
structure Sha256Regs where
  a : Nat
  b : Nat
  c : Nat
  d : Nat
  e : Nat
  f : Nat
  g : Nat
  h : Nat

/-- One SHA-256 round: consume a `(schedule word, round constant)`
pair. -/
def shaRound (r : Sha256Regs) (wk : Nat × Nat) : Sha256Regs :=
  let s1 := (rotr32 6 r.e) ^^^ (rotr32 11 r.e) ^^^ (rotr32 25 r.e)
  let ch := (r.e &&& r.f) ^^^ ((compl32 r.e) &&& r.g)
  let t1 := mask32 (r.h + s1 + ch + wk.2 + wk.1)
  let s0 := (rotr32 2 r.a) ^^^ (rotr32 13 r.a) ^^^ (rotr32 22 r.a)
  let mj := (r.a &&& r.b) ^^^ (r.a &&& r.c) ^^^ (r.b &&& r.c)
  let t2 := mask32 (s0 + mj)
  ⟨mask32 (t1 + t2), r.a, r.b, r.c, mask32 (r.d + t1), r.e, r.f, r.g⟩

/-- Small sigma-0 of the message schedule. -/
def ssig0 (x : Nat) : Nat := (rotr32 7 x) ^^^ (rotr32 18 x) ^^^ (x >>> 3)

/-- Small sigma-1 of the message schedule. -/
def ssig1 (x : Nat) : Nat := (rotr32 17 x) ^^^ (rotr32 19 x) ^^^ (x >>> 10)

/-- Extend the 16 block words to the 64-entry message schedule. -/
def shaSchedule (block : List Nat) : List Nat :=
  (List.range 48).foldl (fun w _ =>
    w ++ [mask32 (ssig1 (w.getD (w.length - 2) 0) + w.getD (w.length - 7) 0
      + ssig0 (w.getD (w.length - 15) 0) + w.getD (w.length - 16) 0)]) block

/-- Compress one 16-word block into the chaining state. -/
def shaCompress (st : Sha256Digest) (block : List Nat) : Sha256Digest :=
  let r := ((shaSchedule block).zip shaK).foldl shaRound
    ⟨st.h0, st.h1, st.h2, st.h3, st.h4, st.h5, st.h6, st.h7⟩
  ⟨mask32 (st.h0 + r.a), mask32 (st.h1 + r.b), mask32 (st.h2 + r.c),
   mask32 (st.h3 + r.d), mask32 (st.h4 + r.e), mask32 (st.h5 + r.f),
   mask32 (st.h6 + r.g), mask32 (st.h7 + r.h)⟩

/-- Group bytes into big-endian 32-bit words. -/
def bytesToWords : List Nat → List Nat
  | b0 :: b1 :: b2 :: b3 :: rest =>
      ((((b0 <<< 8) ||| b1) <<< 8 ||| b2) <<< 8 ||| b3) :: bytesToWords rest
  | _ => []

/-- SHA-256 padding: a `0x80` byte, zeros up to 56 modulo 64, then the
64-bit big-endian bit length of the message. -/
def shaPad (msg : List Nat) : List Nat :=
  let zeros := (64 + 56 - ((msg.length + 1) % 64)) % 64
  msg ++ [128] ++ List.replicate zeros 0
    ++ (List.range 8).map (fun i => ((8 * msg.length) >>> (8 * (7 - i))) % 256)

/-- Split a word list into 16-word chunks (fuel-indexed so that the
kernel can evaluate it). -/
def chunk16Aux : Nat → List Nat → List (List Nat)
  | 0, _ => []
  | _, [] => []
  | n + 1, w :: ws => ((w :: ws).take 16) :: chunk16Aux n ((w :: ws).drop 16)

/-- Split a word list into its 16-word blocks. -/
def chunk16 (l : List Nat) : List (List Nat) := chunk16Aux l.length l

/-- SHA-256 of a byte sequence, as eight chaining words. -/
def sha256Words (msg : List Nat) : Sha256Digest :=
  (chunk16 (bytesToWords (shaPad msg))).foldl shaCompress shaInit

/-- The lowercase hex alphabet of the vendored js-sha256
(`'0123456789abcdef'`). -/
def hexChars : List Char := "0123456789abcdef".data

/-- One hex digit of a nibble value. -/
def hexDigit (n : Nat) : Char := hexChars.getD (n % 16) '0'

/-- A 32-bit word as eight hex characters, most significant nibble
first, as the js-sha256 `hex()` output routine renders it. -/
def wordToHex (w : Nat) : List Char :=
  (List.range 8).map (fun k => hexDigit (w >>> (4 * (7 - k))))

/-- The repository's `sha256(str)` call: UTF-8 encode the string, hash
it, and render the digest as 64 lowercase hex characters. -/
def sha256Hex (s : String) : List Char :=
  let d := sha256Words (utf8Encode s)
  wordToHex d.h0 ++ wordToHex d.h1 ++ wordToHex d.h2 ++ wordToHex d.h3
    ++ wordToHex d.h4 ++ wordToHex d.h5 ++ wordToHex d.h6 ++ wordToHex d.h7

/-- The JavaScript splice `str.substr(0,i) + c + str.substr(i+1)` used
by `hashCreate`'s remap loop. -/
def splice (s : List Char) (i : Nat) (c : Char) : List Char :=
  s.take i ++ c :: s.drop (i + 1)

/-- One iteration of `hashCreate`'s remap loop: the nine cascaded `if`
statements, each re-reading position `i` of the current string
(`str[i]` is `undefined`, hence unequal to every character, past the
end). -/
def remapIter (s : List Char) (i : Nat) : List Char :=
  let s := if s[i]? = some '0' then splice s i 'G' else s
  let s := if s[i]? = some '1' then splice s i 'H' else s
  let s := if s[i]? = some '2' then splice s i 'I' else s
  let s := if s[i]? = some '3' then splice s i 'J' else s
  let s := if s[i]? = some '4' then splice s i 'K' else s
  let s := if s[i]? = some '5' then splice s i 'L' else s
  let s := if s[i]? = some '6' then splice s i 'M' else s
  let s := if s[i]? = some '7' then splice s i 'N' else s
  let s := if s[i]? = some '8' then splice s i 'O' else s
  s

/-- The remap loop of `hashCreate` with its literal bound of 65
iterations. -/
def remapLoop (s : List Char) : List Char := (List.range 65).foldl remapIter s

/-- Variant of the remap loop iterating only 64 times (the digest
length); compared with the 65-iteration original in the
refinement claim. -/
def remapLoop64 (s : List Char) : List Char := (List.range 64).foldl remapIter s

/-- The per-character digit remap table stated by the spec:
digits `0`-`8` map to `G`-`O`, everything else is unchanged. -/
def remapChar (c : Char) : Char :=
  if c = '0' then 'G'
  else if c = '1' then 'H'
  else if c = '2' then 'I'
  else if c = '3' then 'J'
  else if c = '4' then 'K'
  else if c = '5' then 'L'
  else if c = '6' then 'M'
  else if c = '7' then 'N'
  else if c = '8' then 'O'
  else c

/-- The repository's `hashCreate` (the spec's `deriveAddress`): SHA-256
hex digest, uppercased, remapped by the 65-iteration loop, then 17
filler `'9'` characters appended. -/
def hashCreate (s : String) : List Char :=
  remapLoop ((sha256Hex s).map Char.toUpper) ++ List.replicate 17 '9'

/-- Variant of `hashCreate` whose remap loop iterates only 64 times;
compared with the original in the refinement claim. -/
def hashCreate64 (s : String) : List Char :=
  remapLoop64 ((sha256Hex s).map Char.toUpper) ++ List.replicate 17 '9'

/-- A JavaScript number as the rating statistics observe it: an exact
rational, or one of the non-finite values `0/0` and `±x/0` produce. -/
inductive JsNum where
  | nan
  | posInf
  | negInf
  | num (q : ℚ)
deriving DecidableEq

/-- JavaScript division as `get_rating` performs it on `sum` and
`success.length`: division by zero yields `NaN` for a zero numerator
and a signed infinity otherwise; other quotients are modelled exactly
(the spec states the expected averages as exact values). -/
def jsDiv (a : Int) (b : Nat) : JsNum :=
  if b = 0 then
    if a = 0 then .nan else if 0 < a then .posInf else .negInf
  else .num ((a : ℚ) / (b : ℚ))

/-- The summary object `get_rating` hands to its callback: one count
per star value, the record total, and the average. -/
structure RatingSummary where
  r5 : Nat
  r4 : Nat
  r3 : Nat
  r2 : Nat
  r1 : Nat
  total : Nat
  avg : JsNum
deriving DecidableEq

/-- A ledger transaction object, reduced to the one field the rating
code reads. -/
structure TxRecord where
  signatureMessageFragment : List Char
deriving DecidableEq

/-- Count-and-sum accumulator of `get_rating`'s record loop. -/
structure RatingAcc where
  r5 : Nat
  r4 : Nat
  r3 : Nat
  r2 : Nat
  r1 : Nat
  sum : Int
deriving DecidableEq

/-- Decode one record's payload the way `get_rating`'s loop body does:
strip trailing `'9'`, convert from trytes, `JSON.parse`, and read the
`rating` field.  `none` models the exception a malformed payload would
throw. -/
def decodeFragment (frag : List Char) : Option JsonVal :=
  (fromTrytes (rtrim '9' frag)).bind jsonParseRating

/-- The statement `rating[res["rating"]] += 1`: bump the count keyed by
the string coercion of the parsed value.  A key outside `"1"`-`"5"`
would create a fresh property on the JavaScript object instead of
touching the five counts; no claim exercises that path and it is
modelled as a failure. -/
def bumpCount (a : RatingAcc) (j : JsonVal) : Option RatingAcc :=
  let k := keyString j
  if k = "5".data then some { a with r5 := a.r5 + 1 }
  else if k = "4".data then some { a with r4 := a.r4 + 1 }
  else if k = "3".data then some { a with r3 := a.r3 + 1 }
  else if k = "2".data then some { a with r2 := a.r2 + 1 }
  else if k = "1".data then some { a with r1 := a.r1 + 1 }
  else none

/-- One iteration of `get_rating`'s record loop: decode the payload,
bump the matching count, and add `parseInt(res["rating"])` to the
running sum. -/
def ratingStep (acc : Option RatingAcc) (rec : TxRecord) : Option RatingAcc := do
  let a ← acc
  let j ← decodeFragment rec.signatureMessageFragment
  let a ← bumpCount a j
  let n ← jsParseInt j
  pure { a with sum := a.sum + n }

/-- The aggregation `get_rating` performs on a successful query result:
fold the records into counts and a sum, set `total` to the number of
records, and set `avg` to `sum / success.length`. -/
def summarize (recs : List TxRecord) : Option RatingSummary :=
  (recs.foldl ratingStep (some ⟨0, 0, 0, 0, 0, 0⟩)).map (fun a =>
    ⟨a.r5, a.r4, a.r3, a.r2, a.r1, recs.length, jsDiv a.sum recs.length⟩)

/-- A console log entry. -/
inductive LogItem where
  | plain (s : List Char)
  | jsError (e : List Char)
  | jsSuccess (s : List Char)
deriving DecidableEq

/-- Observable outcome of one `get_rating` call: the queried addresses,
the console logs of its error branch, and the argument passed to the
callback (`none` when the callback is never invoked). -/
structure GetRatingTrace where
  queried : List (List Char)
  logs : List LogItem
  callbackArg : Option RatingSummary
deriving DecidableEq

/-- The repository's `get_rating(book_addr, callback)`, as a function
of the outcome the ledger client's `findTransactionObjects` delivers:
on error it logs the error and returns without calling the callback;
on success it aggregates the records and calls the callback with the
summary.  (The success path's debugging `console.log` output is not
modelled.) -/
def get_rating (book_addr : List Char) (outcome : Except (List Char) (List TxRecord)) :
    GetRatingTrace :=
  match outcome with
  | .error e => ⟨[book_addr], [.jsError e], none⟩
  | .ok succ => ⟨[book_addr], [], summarize succ⟩

/-- One transfer object of a `sendTransfer` call. -/
structure Transfer where
  value : Nat
  address : List Char
  message : Option (List Char)
deriving DecidableEq

/-- One `sendTransfer` invocation: seed, depth, minimum weight
magnitude, and the transfer list. -/
structure SendCall where
  seed : List Char
  depth : Nat
  minWeightMagnitude : Nat
  transfers : List Transfer
deriving DecidableEq

/-- Observable outcome of one `push_rating` call: the `sendTransfer`
calls issued, the console logs, and the (absent) return value. -/
structure PushRatingTrace where
  sends : List SendCall
  logs : List LogItem
  retval : Option Unit
deriving DecidableEq

/-- The repository's `push_rating(book_addr, rating)`, as a function of
the outcome the ledger client's `sendTransfer` delivers: it encodes the
payload, issues exactly one zero-value transfer to the address, logs
the error or the success object, returns nothing, and never retries. -/
def push_rating (book_addr rating : List Char)
    (outcome : Except (List Char) (List Char)) : PushRatingTrace :=
  let message := toTrytes rating
  { sends := [⟨book_addr, 3, 14, [⟨0, book_addr, message⟩]⟩]
    logs := [.plain rating] ++
      [match outcome with
       | .error e => .jsError e
       | .ok s => .jsSuccess s]
    retval := none }

/-- The location object delivered by the rendition's `relocated` event,
reduced to the fields the handler reads. -/
structure RelocLocation where
  page : Int
  total : Int
  atStart : Bool
  atEnd : Bool
deriving DecidableEq

/-- A DOM side effect of the `relocated` handler. -/
inductive DomAction where
  | addClass (elemId cls : String)
  | consoleLogPage (p : Int)
deriving DecidableEq

/-- The reader controller's `relocated` handler: it shows the voting
modal (and logs the page) exactly when the displayed page equals the
displayed total minus one, and disables the prev/next buttons at the
start/end of the book. -/
def relocatedHandler (loc : RelocLocation) : List DomAction :=
  (if loc.page = loc.total - 1
   then [.consoleLogPage loc.page, .addClass "votingModal" "md-show"] else [])
  ++ (if loc.atStart then [.addClass "prev" "disabled"] else [])
  ++ (if loc.atEnd then [.addClass "next" "disabled"] else [])

/-- A fixed GET route of one of the static servers: the path and the
file sent in response. -/
structure Route where
  path : String
  file : String
deriving DecidableEq

/-- Route table of the server variant that mounts the reader under
`/books` (the `process.env.PORT || 3000` variant). -/
def booksServerRoutes : List Route :=
  [⟨"/", "index.html"⟩, ⟨"/about", "about.html"⟩, ⟨"/contact", "contact.html"⟩,
   ⟨"/books", "reader/reader/reader.html"⟩]

/-- Static mounts of the `/books` server variant: mount prefix and
served directory. -/
def booksServerStatics : List (String × String) :=
  [("/", "public"), ("/books", "reader/reader")]

/-- Route table of `server.js`: the reader page is served at `/sleep`
and there is no `/books` route. -/
def serverJsRoutes : List Route :=
  [⟨"/", "index.html"⟩, ⟨"/about", "about.html"⟩, ⟨"/contact", "contact.html"⟩,
   ⟨"/sleep", "reader/reader/reader.html"⟩]

/-- Static mounts of `server.js`: both directories are mounted at the
router root. -/
def serverJsStatics : List (String × String) :=
  [("/", "public"), ("/", "reader/reader")]

/-- The JavaScript expression `process.env.PORT || 3000`: the
environment value when it is set and non-empty (a string), the numeric
default otherwise. -/
def jsPortOr (env : Option String) (d : Nat) : String ⊕ Nat :=
  match env with
  | none => .inr d
  | some s => if s = "" then .inr d else .inl s

/-- Listening port of the `/books` server variant. -/
def booksServerPort (env : Option String) : String ⊕ Nat := jsPortOr env 3000

/-- Listening port of `server.js`: the literal 3000, whatever the
environment holds. -/
def serverJsPort (_ : Option String) : String ⊕ Nat := .inr 3000

/-- The property asserted by the server claim, as a predicate on a
route table and a port function: the port comes from the `PORT`
environment variable with default 3000, and the fixed routes are
exactly `/`, `/about`, `/contact` and `/books`, the last serving the
reader page. -/
def ServerClaim (routes : List Route) (port : Option String → String ⊕ Nat) : Prop :=
  port none = .inr 3000
  ∧ (∀ s, s ≠ "" → port (some s) = .inl s)
  ∧ routes.map Route.path = ["/", "/about", "/contact", "/books"]
  ∧ ∃ r ∈ routes, r.path = "/books" ∧ r.file = "reader/reader/reader.html"

/-- C10: when `findTransactionObjects` reports an error, `get_rating`
logs the error and returns without ever invoking its callback, for
every address: the caller receives neither a summary nor an error
value. -/
theorem get_rating_error_no_callback (book_addr e : List Char) :
    get_rating book_addr (.error e) =
      ⟨[book_addr], [LogItem.jsError e], none⟩ := rfl

/-- C2 counterexample: over zero records `get_rating` does not hand its
callback the summary with average `0`; the claimed callback value is
wrong at this input. -/
theorem get_rating_empty_avg_zero_cex :
    (get_rating "A".data (.ok [])).callbackArg ≠
      some ⟨0, 0, 0, 0, 0, 0, JsNum.num 0⟩ := by decide

/-- C2 amended: over zero records `get_rating` invokes its callback
with all five counts `0` and total `0`, but with average `NaN` (the
JavaScript division `0 / 0`), not the number `0`. -/
theorem get_rating_empty_summary (book_addr : List Char) :
    (get_rating book_addr (.ok [])).callbackArg =
      some ⟨0, 0, 0, 0, 0, 0, JsNum.nan⟩ := rfl

/-- C3: for every integer rating in `1`-`5`, JSON-serializing the
rating object, converting to trytes, and decoding back (strip trailing
filler, convert from trytes, parse, extract, coerce) returns the same
rating. -/
theorem decode_encode_roundtrip (r : Int) (h1 : 1 ≤ r) (h2 : r ≤ 5) :
    (encodeRating r).bind decodeRating = some r := by
  interval_cases r <;> decide

/-- Witness for the round-trip theorem at the concrete rating 4. -/
theorem decode_encode_roundtrip_witness :
    (1 : Int) ≤ 4 ∧ (4 : Int) ≤ 5 ∧ (encodeRating 4).bind decodeRating = some 4 :=
  ⟨by decide, by decide, decode_encode_roundtrip 4 (by decide) (by decide)⟩

/-- C8: whatever outcome `sendTransfer` reports, `push_rating` issues
exactly the one zero-value transfer, returns no value, and on an error
outcome only logs the error (after the unconditional payload log):
nothing is retried or propagated. -/
theorem push_rating_error_only_logs (book_addr rating : List Char)
    (outcome : Except (List Char) (List Char)) :
    (push_rating book_addr rating outcome).sends =
      [⟨book_addr, 3, 14, [⟨0, book_addr, toTrytes rating⟩]⟩]
    ∧ (push_rating book_addr rating outcome).retval = none
    ∧ ∀ e, outcome = .error e →
        (push_rating book_addr rating outcome).logs =
          [LogItem.plain rating, LogItem.jsError e] := by
  refine ⟨rfl, rfl, ?_⟩
  rintro e rfl
  rfl

/-- Witness for the `push_rating` error-handling theorem at concrete
inputs. -/
theorem push_rating_error_only_logs_witness :
    (push_rating "A".data "r".data (.error "e".data)).sends =
      [⟨"A".data, 3, 14, [⟨0, "A".data, toTrytes "r".data⟩]⟩]
    ∧ (push_rating "A".data "r".data (.error "e".data)).retval = none
    ∧ (push_rating "A".data "r".data (.error "e".data)).logs =
        [LogItem.plain "r".data, LogItem.jsError "e".data] :=
  ⟨(push_rating_error_only_logs "A".data "r".data (.error "e".data)).1,
   (push_rating_error_only_logs "A".data "r".data (.error "e".data)).2.1,
   (push_rating_error_only_logs "A".data "r".data (.error "e".data)).2.2 "e".data rfl⟩

/-- C7 counterexample: on a relocation whose displayed page equals the
displayed total (the final displayed page, here page 3 of 3), the
handler does not show the voting modal — the prompt condition is not
`page = total`. -/
theorem relocated_final_page_cex :
    DomAction.addClass "votingModal" "md-show" ∉
      relocatedHandler ⟨3, 3, false, true⟩ := by decide

/-- C7 amended: the `relocated` handler adds the `md-show` class to the
voting modal exactly when the displayed page equals the displayed total
minus one; for every other page (including the final one) this handler
does not show the prompt. -/
theorem relocated_shows_voting_iff (loc : RelocLocation) :
    DomAction.addClass "votingModal" "md-show" ∈ relocatedHandler loc ↔
      loc.page = loc.total - 1 := by
  by_cases h : loc.page = loc.total - 1 <;>
    by_cases h1 : loc.atStart <;> by_cases h2 : loc.atEnd <;>
      simp [relocatedHandler, h, h1, h2]

/-- C9 counterexample: the routes and port of `server.js` falsify the
claim: its route table does not consist of `/`, `/about`, `/contact`,
`/books` (it serves `/sleep` instead), and its port ignores the
environment. -/
theorem server_claim_cex : ¬ ServerClaim serverJsRoutes serverJsPort := by
  intro h
  exact absurd h.2.2.1 (by decide)

/-- C9 amended: of the two server variants in the tree, the one
mounting the reader under `/books` takes its port from the `PORT`
environment variable (default 3000) and serves exactly `/`, `/about`,
`/contact` and `/books` (the reader page) plus the two static mounts;
the `server.js` variant instead hardcodes port 3000 and serves the
reader page at `/sleep`. -/
theorem server_claim_books_variant :
    ServerClaim booksServerRoutes booksServerPort
    ∧ serverJsPort (some "8080") = .inr 3000
    ∧ serverJsRoutes.map Route.path = ["/", "/about", "/contact", "/sleep"]
    ∧ booksServerStatics = [("/", "public"), ("/books", "reader/reader")] := by
  refine ⟨⟨rfl, ?_, by decide, ?_⟩, rfl, by decide, rfl⟩
  · intro s hs
    simp [booksServerPort, jsPortOr, hs]
  · exact ⟨⟨"/books", "reader/reader/reader.html"⟩, by decide, rfl, rfl⟩

/-- Witness for the server theorem: the books variant's port at a
concrete set and unset environment. -/
theorem server_claim_books_variant_witness :
    booksServerPort none = .inr 3000
    ∧ ("8080" ≠ "" ∧ booksServerPort (some "8080") = .inl "8080") :=
  ⟨server_claim_books_variant.1.1, by decide,
   server_claim_books_variant.1.2.1 "8080" (by decide)⟩

lemma splice_length (s : List Char) (i : Nat) (c : Char) (h : i < s.length) :
    (splice s i c).length = s.length := by
  simp only [splice, List.length_append, List.length_take, List.length_cons,
    List.length_drop]
  omega

lemma splice_getElem (s : List Char) (i : Nat) (c : Char) (h : i < s.length) :
    (splice s i c)[i]? = some c := by
  have ht : (s.take i).length = i := by
    simp only [List.length_take]
    omega
  rw [splice, List.getElem?_append_right (le_of_eq ht), ht]
  simp

lemma splice_self (s : List Char) (i : Nat) (c : Char) (h : s[i]? = some c) :
    splice s i c = s := by
  obtain ⟨hlt, hc⟩ := List.getElem?_eq_some.mp h
  rw [splice, ← hc, ← List.drop_eq_getElem_cons hlt, List.take_append_drop]

lemma remapIter_of_none {s : List Char} {i : Nat} (h : s[i]? = none) :
    remapIter s i = s := by
  simp [remapIter, h]

lemma remapIter_of_some {s : List Char} {i : Nat} {c : Char} (h : s[i]? = some c) :
    remapIter s i = splice s i (remapChar c) := by
  have hlt : i < s.length := (List.getElem?_eq_some.mp h).1
  by_cases h0 : c = '0'
  · subst h0
    simp [remapIter, h, splice_getElem s i 'G' hlt, remapChar]
  by_cases h1 : c = '1'
  · subst h1
    simp [remapIter, h, splice_getElem s i 'H' hlt, remapChar]
  by_cases h2 : c = '2'
  · subst h2
    simp [remapIter, h, splice_getElem s i 'I' hlt, remapChar]
  by_cases h3 : c = '3'
  · subst h3
    simp [remapIter, h, splice_getElem s i 'J' hlt, remapChar]
  by_cases h4 : c = '4'
  · subst h4
    simp [remapIter, h, splice_getElem s i 'K' hlt, remapChar]
  by_cases h5 : c = '5'
  · subst h5
    simp [remapIter, h, splice_getElem s i 'L' hlt, remapChar]
  by_cases h6 : c = '6'
  · subst h6
    simp [remapIter, h, splice_getElem s i 'M' hlt, remapChar]
  by_cases h7 : c = '7'
  · subst h7
    simp [remapIter, h, splice_getElem s i 'N' hlt, remapChar]
  by_cases h8 : c = '8'
  · subst h8
    simp [remapIter, h, splice_getElem s i 'O' hlt, remapChar]
  have hrc : remapChar c = c := by
    simp [remapChar, h0, h1, h2, h3, h4, h5, h6, h7, h8]
  rw [hrc, splice_self s i c h]
  simp [remapIter, h, h0, h1, h2, h3, h4, h5, h6, h7, h8]

lemma foldl_remapIter (n : Nat) (s : List Char) :
    (List.range n).foldl remapIter s = (s.take n).map remapChar ++ s.drop n := by
  induction n with
  | zero => simp
  | succ n ih =>
      rw [List.range_succ, List.foldl_append, ih]
      simp only [List.foldl_cons, List.foldl_nil]
      by_cases hn : n < s.length
      · have hlen : ((s.take n).map remapChar).length = n := by
          simp only [List.length_map, List.length_take]
          omega
        have hget : ((s.take n).map remapChar ++ s.drop n)[n]? = some s[n] := by
          rw [List.getElem?_append_right (le_of_eq hlen), hlen, Nat.sub_self,
            List.drop_eq_getElem_cons hn]
          simp
        have hdrop : ((s.take n).map remapChar ++ s.drop n).drop (n + 1) =
            s.drop (n + 1) := by
          rw [← List.drop_drop, List.drop_left' hlen, List.drop_drop]
        rw [remapIter_of_some hget, splice, List.take_left' hlen, hdrop,
          List.take_succ, List.getElem?_eq_getElem hn]
        simp only [Option.toList_some, List.map_append, List.map_cons, List.map_nil,
          List.append_assoc, List.singleton_append, List.cons_append, List.nil_append]
      · have hle : s.length ≤ n := Nat.le_of_not_lt hn
        rw [List.take_of_length_le hle, List.drop_of_length_le hle,
          List.take_of_length_le (Nat.le_succ_of_le hle),
          List.drop_of_length_le (Nat.le_succ_of_le hle)]
        simp only [List.append_nil]
        exact remapIter_of_none (List.getElem?_eq_none (by simpa using hle))

lemma remapLoop_eq_map {s : List Char} (h : s.length ≤ 65) :
    remapLoop s = s.map remapChar := by
  rw [remapLoop, foldl_remapIter, List.take_of_length_le h, List.drop_of_length_le h,
    List.append_nil]

lemma remapLoop64_eq_map {s : List Char} (h : s.length ≤ 64) :
    remapLoop64 s = s.map remapChar := by
  rw [remapLoop64, foldl_remapIter, List.take_of_length_le h, List.drop_of_length_le h,
    List.append_nil]

lemma hexDigit_mem (n : Nat) : hexDigit n ∈ hexChars := by
  have h : n % 16 < hexChars.length := by
    have h16 : hexChars.length = 16 := by decide
    omega
  rw [hexDigit, List.getD_eq_getElem?_getD, List.getElem?_eq_getElem h,
    Option.getD_some]
  exact List.getElem_mem h

lemma wordToHex_length (w : Nat) : (wordToHex w).length = 8 := by
  simp [wordToHex]

lemma wordToHex_mem {c : Char} {w : Nat} (h : c ∈ wordToHex w) : c ∈ hexChars := by
  rw [wordToHex] at h
  simp only [List.mem_map] at h
  obtain ⟨k, _, rfl⟩ := h
  exact hexDigit_mem _

lemma sha256Hex_length (s : String) : (sha256Hex s).length = 64 := by
  rw [sha256Hex]
  simp [wordToHex_length]

lemma sha256Hex_mem {s : String} {c : Char} (h : c ∈ sha256Hex s) : c ∈ hexChars := by
  rw [sha256Hex] at h
  simp only [List.mem_append] at h
  rcases h with ((((((h | h) | h) | h) | h) | h) | h) | h <;> exact wordToHex_mem h

lemma remapChar_upper_hex :
    ∀ c ∈ hexChars, remapChar c.toUpper = '9' ∨
      ('A' ≤ remapChar c.toUpper ∧ remapChar c.toUpper ≤ 'Z') := by decide

lemma hashCreate_eq (s : String) :
    hashCreate s =
      ((sha256Hex s).map Char.toUpper).map remapChar ++ List.replicate 17 '9' := by
  rw [hashCreate, remapLoop_eq_map]
  rw [List.length_map, sha256Hex_length]
  omega

lemma hashCreate_length (s : String) : (hashCreate s).length = 81 := by
  rw [hashCreate_eq]
  simp [sha256Hex_length]

/-- C1 counterexample: at the concrete book path `"x"` the derived
address has length 81, not the claimed 82 (the digest contributes 64
characters, not 65). -/
theorem hashCreate_length_cex : (hashCreate "x").length ≠ 82 := by
  rw [hashCreate_length]
  decide

/-- C1 amended: for every book path string, `hashCreate` returns a
string whose first 64 characters are drawn from the alphabet
`9`, `A`-`Z` (so no lowercase letters and no decimal digits `0`-`8`),
followed by exactly 17 `'9'` filler characters, for a total length of
81. -/
theorem hashCreate_address_shape (s : String) :
    (hashCreate s).length = 81
    ∧ (∀ c ∈ (hashCreate s).take 64, c = '9' ∨ ('A' ≤ c ∧ c ≤ 'Z'))
    ∧ (hashCreate s).drop 64 = List.replicate 17 '9' := by
  have hlen : (((sha256Hex s).map Char.toUpper).map remapChar).length = 64 := by
    simp [sha256Hex_length]
  refine ⟨hashCreate_length s, ?_, ?_⟩
  · intro c hc
    rw [hashCreate_eq, List.take_left' hlen] at hc
    simp only [List.map_map, List.mem_map, Function.comp] at hc
    obtain ⟨d, hd, rfl⟩ := hc
    exact remapChar_upper_hex d (sha256Hex_mem hd)
  · rw [hashCreate_eq, List.drop_left' hlen]

/-- The uppercase hex digest alphabet. -/
def hexUpperChars : List Char := "0123456789ABCDEF".data

/-- C4: on a 64-character uppercased hex digest, the remap loop of
`hashCreate` rewrites every position by the fixed table `remapChar`
(digits `0`-`8` become `G`-`O` at the same position), and `remapChar`
leaves `9` and the letters `A`-`F` unchanged. -/
theorem remap_positionwise (ds : List Char)
    (_hhex : ∀ c ∈ ds, c ∈ hexUpperChars) (hlen : ds.length = 64) :
    (∀ i, i < 64 → (remapLoop ds)[i]? = (ds[i]?).map remapChar)
    ∧ (∀ c, c = '9' ∨ ('A' ≤ c ∧ c ≤ 'F') → remapChar c = c) := by
  constructor
  · intro i _
    rw [remapLoop_eq_map (by omega), List.getElem?_map]
  · intro c hc
    rcases hc with rfl | ⟨h1, h2⟩
    · decide
    · have n0 : c ≠ '0' := by rintro rfl; exact absurd h1 (by decide)
      have n1 : c ≠ '1' := by rintro rfl; exact absurd h1 (by decide)
      have n2 : c ≠ '2' := by rintro rfl; exact absurd h1 (by decide)
      have n3 : c ≠ '3' := by rintro rfl; exact absurd h1 (by decide)
      have n4 : c ≠ '4' := by rintro rfl; exact absurd h1 (by decide)
      have n5 : c ≠ '5' := by rintro rfl; exact absurd h1 (by decide)
      have n6 : c ≠ '6' := by rintro rfl; exact absurd h1 (by decide)
      have n7 : c ≠ '7' := by rintro rfl; exact absurd h1 (by decide)
      have n8 : c ≠ '8' := by rintro rfl; exact absurd h1 (by decide)
      simp [remapChar, n0, n1, n2, n3, n4, n5, n6, n7, n8]

/-- A concrete 64-character uppercased hex digest used as witness
input. -/
def hexDigestExample : List Char :=
  "0123456789ABCDEF0123456789ABCDEF0123456789ABCDEF0123456789ABCDEF".data

/-- Witness for the remap theorem at a concrete 64-character hex
digest and position 0. -/
theorem remap_positionwise_witness :
    (∀ c ∈ hexDigestExample, c ∈ hexUpperChars)
    ∧ hexDigestExample.length = 64
    ∧ (remapLoop hexDigestExample)[0]? = (hexDigestExample[0]?).map remapChar :=
  ⟨by decide, by decide,
    (remap_positionwise hexDigestExample (by decide) (by decide)).1 0 (by decide)⟩

/-- C5: `hashCreate` with its literal 65-iteration remap loop returns
the same address as the variant iterating only 64 times, for every
input (the digest string always has 64 characters); and on any
64-character string the 65th iteration (position index 64) alters
nothing. -/
theorem hashCreate_loop_bound_moot :
    (∀ s, hashCreate s = hashCreate64 s)
    ∧ (∀ ds : List Char, ds.length = 64 → remapIter ds 64 = ds) := by
  constructor
  · intro s
    have hb : ((sha256Hex s).map Char.toUpper).length ≤ 65 := by
      rw [List.length_map, sha256Hex_length]
      omega
    have hb' : ((sha256Hex s).map Char.toUpper).length ≤ 64 := by
      rw [List.length_map, sha256Hex_length]
    rw [hashCreate, hashCreate64, remapLoop_eq_map hb, remapLoop64_eq_map hb']
  · intro ds h
    exact remapIter_of_none (List.getElem?_eq_none (by omega))

/-- Witness for the loop-bound theorem: a concrete book path and a
concrete 64-character string. -/
theorem hashCreate_loop_bound_moot_witness :
    hashCreate "x" = hashCreate64 "x"
    ∧ (List.replicate 64 'A').length = 64
    ∧ remapIter (List.replicate 64 'A') 64 = List.replicate 64 'A' :=
  ⟨hashCreate_loop_bound_moot.1 "x", by decide,
    hashCreate_loop_bound_moot.2 (List.replicate 64 'A') (by decide)⟩

lemma rtrim_of_getLast_ne {c : Char} {s : List Char} (h : s.getLast? ≠ some c) :
    rtrim c s = s := by
  cases s with
  | nil => rfl
  | cons a t => simp [rtrim, List.length_cons, rtrimAux, h]

lemma rtrim_concat (c : Char) (X : List Char) : rtrim c (X ++ [c]) = rtrim c X := by
  have h : rtrim c (X ++ [c]) = rtrimAux (X.length + 1) c (X ++ [c]) := by
    rw [rtrim]
    congr 1
    simp
  rw [h]
  simp only [rtrimAux, List.getLast?_concat, List.dropLast_concat, if_true]
  rw [rtrim]

lemma rtrim_pad (c : Char) (T : List Char) (k : Nat) (h : T.getLast? ≠ some c) :
    rtrim c (T ++ List.replicate k c) = T := by
  induction k with
  | zero => simpa using rtrim_of_getLast_ne h
  | succ k ih =>
      rw [List.replicate_succ', ← List.append_assoc, rtrim_concat]
      exact ih

/-- A ledger record payload as stored for rating `v`: the tryte
encoding of the JSON rating object, padded with `k` filler trytes (on
the real ledger `signatureMessageFragment` is padded to a fixed
length). -/
def ratingFragment (v : Int) (k : Nat) : List Char :=
  (toTrytes (jsonStringifyRating v)).getD [] ++ List.replicate k '9'

lemma decodeFragment_ratingFragment {v : Int} (h1 : 1 ≤ v) (h2 : v ≤ 5) (k : Nat) :
    decodeFragment (ratingFragment v k) = some (.num v) := by
  interval_cases v <;>
    (rw [decodeFragment, ratingFragment, rtrim_pad _ _ _ (by decide)]; decide)

lemma ratingStep_fragment {v : Int} (h1 : 1 ≤ v) (h2 : v ≤ 5) (k : Nat)
    (acc : RatingAcc) :
    ratingStep (some acc) ⟨ratingFragment v k⟩ =
      some ⟨acc.r5 + (if v = 5 then 1 else 0), acc.r4 + (if v = 4 then 1 else 0),
            acc.r3 + (if v = 3 then 1 else 0), acc.r2 + (if v = 2 then 1 else 0),
            acc.r1 + (if v = 1 then 1 else 0), acc.sum + v⟩ := by
  interval_cases v <;>
    (simp only [ratingStep];
     rw [decodeFragment_ratingFragment (by decide) (by decide) k];
     rfl)

lemma ratingStep_fold (k : Nat) (vs : List Int) :
    ∀ acc : RatingAcc, (∀ v ∈ vs, 1 ≤ v ∧ v ≤ 5) →
      (vs.map (fun v => TxRecord.mk (ratingFragment v k))).foldl ratingStep (some acc) =
        some ⟨acc.r5 + vs.count 5, acc.r4 + vs.count 4, acc.r3 + vs.count 3,
              acc.r2 + vs.count 2, acc.r1 + vs.count 1, acc.sum + vs.sum⟩ := by
  induction vs with
  | nil => intro acc _; simp
  | cons v vs ih =>
      intro acc hb
      obtain ⟨h1, h2⟩ := hb v (List.mem_cons_self v vs)
      rw [List.map_cons, List.foldl_cons, ratingStep_fragment h1 h2 k acc,
        ih _ (fun w hw => hb w (List.mem_cons_of_mem v hw))]
      simp only [Option.some.injEq, RatingAcc.mk.injEq, List.count_cons, List.sum_cons,
        beq_iff_eq]
      refine ⟨?_, ?_, ?_, ?_, ?_, by omega⟩ <;> (split_ifs <;> omega)

/-- C6: `get_rating` folds the decoded rating values of the records at
an address into per-value counts for 1 through 5, a total equal to the
number of records, and an average equal to the sum of the values
divided by the total (the JavaScript division, `NaN` on an empty
list). -/
theorem summarize_counts (vs : List Int) (hb : ∀ v ∈ vs, 1 ≤ v ∧ v ≤ 5) (k : Nat) :
    summarize (vs.map (fun v => TxRecord.mk (ratingFragment v k))) =
      some ⟨vs.count 5, vs.count 4, vs.count 3, vs.count 2, vs.count 1,
            vs.length, jsDiv vs.sum vs.length⟩ := by
  rw [summarize, ratingStep_fold k vs ⟨0, 0, 0, 0, 0, 0⟩ hb]
  simp

/-- Witness for the aggregation theorem at the record multiset
`[5, 5, 3]`: count 2 for rating 5, count 1 for rating 3, total 3, and
average `13/3`. -/
theorem summarize_counts_witness :
    (∀ v ∈ ([5, 5, 3] : List Int), 1 ≤ v ∧ v ≤ 5)
    ∧ summarize (([5, 5, 3] : List Int).map (fun v => TxRecord.mk (ratingFragment v 0))) =
        some ⟨2, 0, 1, 0, 0, 3, JsNum.num (((13 : Int) : ℚ) / ((3 : Nat) : ℚ))⟩ := by
  refine ⟨by decide, ?_⟩
  rw [summarize_counts [5, 5, 3] (by decide) 0,
    show ([5, 5, 3] : List Int).count 5 = 2 from by decide,
    show ([5, 5, 3] : List Int).count 4 = 0 from by decide,
    show ([5, 5, 3] : List Int).count 3 = 1 from by decide,
    show ([5, 5, 3] : List Int).count 2 = 0 from by decide,
    show ([5, 5, 3] : List Int).count 1 = 0 from by decide,
    show ([5, 5, 3] : List Int).sum = 13 from by decide,
    show ([5, 5, 3] : List Int).length = 3 from by decide]
  simp [jsDiv]
